import Mathlib

set_option maxRecDepth 40000

/-!
Shallow embedding of `agilent.py` from python-agilent-file-formats.

Conventions used throughout:

* A binary header file (`.bsp` / `.dmt`) is a `List ℕ` of byte values.
* A tile data file (`.dat` / `.dmd`) is the `List ℚ` of 32-bit float
  elements obtained by `np.fromfile(f, dtype=np.float32)`; float
  arithmetic on the decoded values is modelled exactly over `ℚ`.
* Fallible python operations (struct.unpack on a short read, numpy
  in-place shape assignment, broadcasting slice assignment, opening or
  stat-ing a missing file) are modelled with `Except String`.
* numpy arrays of rank 3 are modelled as explicit dimensions plus a
  total index function (`NDArray3` below); all theorems about array
  contents quantify only over indices inside the dimensions.
-/

namespace Agilent

/-- Reading `n` bytes at absolute offset `pos` of a file, after `f.seek pos`:
python returns the available bytes, possibly fewer than `n`. -/
def fileRead (src : List ℕ) (pos n : ℕ) : List ℕ :=
  (src.drop pos).take n

/-- Little-endian interpretation of a byte list as a natural number. -/
def leNat : List ℕ → ℕ
  | [] => 0
  | b :: bs => b + 256 * leNat bs

/-- Two's complement reading of a 32-bit little-endian byte quadruple,
as `struct.unpack("i", ...)` does. -/
def int32OfBytes (bs : List ℕ) : ℤ :=
  let n := leNat bs
  if n < 2 ^ 31 then (n : ℤ) else (n : ℤ) - 2 ^ 32

/-- Model of `_readint(f)` after `f.seek pos`: `struct.unpack("i", f.read(4))[0]`.
`struct.unpack` raises `struct.error` when fewer than 4 bytes are available. -/
def _readint (src : List ℕ) (pos : ℕ) : Except String ℤ :=
  if (fileRead src pos 4).length = 4 then
    Except.ok (int32OfBytes (fileRead src pos 4))
  else Except.error "struct.error: unpack requires a buffer of 4 bytes"

/-- Exact rational value of an IEEE-754 binary64 bit pattern
(little-endian bytes already folded into `bits`).  Finite values are
decoded exactly; the non-finite patterns (exponent field 2047, i.e.
inf/nan) have no rational value and are mapped to 0 — no claim in this
development depends on them. -/
def f64ToRat (bits : ℕ) : ℚ :=
  let sign : ℕ := bits / 2 ^ 63
  let expo : ℕ := bits / 2 ^ 52 % 2 ^ 11
  let mant : ℕ := bits % 2 ^ 52
  let mag : ℚ :=
    if expo = 0 then (mant : ℚ) * (2 : ℚ) ^ (-1074 : ℤ)
    else ((2 ^ 52 + mant : ℕ) : ℚ) * (2 : ℚ) ^ ((expo : ℤ) - 1075)
  if sign % 2 = 1 then -mag else mag

/-- Model of `_readdouble(f)` after `f.seek pos`: `struct.unpack("d", f.read(8))[0]`,
failing like `_readint` when fewer than 8 bytes are available. -/
def _readdouble (src : List ℕ) (pos : ℕ) : Except String ℚ :=
  if (fileRead src pos 8).length = 8 then
    Except.ok (f64ToRat (leNat (fileRead src pos 8)))
  else Except.error "struct.error: unpack requires a buffer of 8 bytes"

/-- The list comprehension of `_get_wavenumbers`, line 54 of agilent.py:
the list of `PtSep * (StartPt + i)` for `i` in `range Npts`.
`StartPt + i` is integer addition; the product is float arithmetic,
modelled exactly over `ℚ`. -/
def wavenumbersList (ptSep : ℚ) (startPt : ℤ) (npts : ℕ) : List ℚ :=
  (List.range npts).map (fun (i : ℕ) => ptSep * ((startPt + (i : ℤ) : ℤ) : ℚ))

/-- The dictionary built by `_get_wavenumbers`. -/
structure HeaderDict where
  StartPt : ℤ
  Npts : ℤ
  PtSep : ℚ
  wavenumbers : List ℚ

/-- Model of `_get_wavenumbers(f)`: reads `StartPt` at 2228, `Npts` at 2236,
`PtSep` at 2216 (in that order, as the source does) and builds the
wavenumbers list.  `range` of a negative `Npts` is empty, hence
`Int.toNat`. -/
def _get_wavenumbers (src : List ℕ) : Except String HeaderDict :=
  match _readint src 2228 with
  | Except.error e => Except.error e
  | Except.ok startPt =>
    match _readint src 2236 with
    | Except.error e => Except.error e
    | Except.ok npts =>
      match _readdouble src 2216 with
      | Except.error e => Except.error e
      | Except.ok ptSep =>
        Except.ok ⟨startPt, npts, ptSep, wavenumbersList ptSep startPt npts.toNat⟩

/-- Model of `bytes.partition` at byte 0x04, first component: the longest prefix before the first
byte 0x04 (the whole string when 0x04 does not occur). -/
def partitionBefore4 (bs : List ℕ) : List ℕ :=
  bs.takeWhile (fun b => b != 4)

/-- Model of `bytes.decode()`: UTF-8 decoding, modelled on the ASCII range (every
byte below 128 decodes to itself; any higher byte is rejected).  The
timestamp strings of the format are ASCII; no claim exercises multi-byte
UTF-8 sequences. -/
def bytesDecode (bs : List ℕ) : Except String (List ℕ) :=
  if bs.all (fun b => decide (b < 128)) then Except.ok bs
  else Except.error "UnicodeDecodeError"

/-- Model of `_get_date(f)`: seek to 16489, read 46 bytes, partition at byte 0x04, keep the part before it, decode.
Note that a source shorter than 16489+46 bytes simply yields fewer (or
zero) bytes from the read — python `read` never fails at EOF. -/
def _get_date (src : List ℕ) : Except String (List ℕ) :=
  bytesDecode (partitionBefore4 (fileRead src 16489 46))

/-- Floor integer square root, counting up from `r` with at most `fuel`
increments.  Structural in `fuel`, so that it evaluates by kernel
reduction. -/
def isqrtUp (m : ℕ) : ℕ → ℕ → ℕ
  | 0, r => r
  | fuel + 1, r => if (r + 1) * (r + 1) ≤ m then isqrtUp m fuel (r + 1) else r

/-- Model of `int(np.sqrt(m))` for a nonnegative integer argument: the floor of
the real square root. -/
def isqrt (m : ℕ) : ℕ :=
  isqrtUp m m 0

theorem isqrtUp_spec (m : ℕ) : ∀ fuel r, r * r ≤ m → m < (r + fuel + 1) * (r + fuel + 1) →
    isqrtUp m fuel r * isqrtUp m fuel r ≤ m ∧ m < (isqrtUp m fuel r + 1) * (isqrtUp m fuel r + 1) := by
  intro fuel
  induction fuel with
  | zero =>
    intro r h1 h2
    simpa [isqrtUp] using ⟨h1, by simpa using h2⟩
  | succ n ih =>
    intro r h1 h2
    by_cases h : (r + 1) * (r + 1) ≤ m
    · have : isqrtUp m (n + 1) r = isqrtUp m n (r + 1) := by
        simp [isqrtUp, h]
      rw [this]
      refine ih (r + 1) h ?_
      have e : r + 1 + n + 1 = r + (n + 1) + 1 := by omega
      rw [e]
      exact h2
    · have : isqrtUp m (n + 1) r = r := by
        simp [isqrtUp, h]
      rw [this]
      exact ⟨h1, by omega⟩

theorem isqrt_spec (m : ℕ) : isqrt m * isqrt m ≤ m ∧ m < (isqrt m + 1) * (isqrt m + 1) := by
  have h0 : m < (m + 1) * (m + 1) :=
    lt_of_lt_of_le (Nat.lt_succ_self m) (Nat.le_mul_of_pos_left _ (by omega))
  have h2 : m < (0 + m + 1) * (0 + m + 1) := by simpa using h0
  simpa [isqrt] using isqrtUp_spec m m 0 (by simp) h2

/-- Uniqueness: `isqrt m` is the unique `s` with `s * s ≤ m < (s+1) * (s+1)`. -/
theorem isqrt_eq_of (m s : ℕ) (h1 : s * s ≤ m) (h2 : m < (s + 1) * (s + 1)) :
    isqrt m = s := by
  obtain ⟨ha, hb⟩ := isqrt_spec m
  rcases Nat.lt_trichotomy (isqrt m) s with h | h | h
  · have : isqrt m + 1 ≤ s := h
    have := Nat.mul_le_mul this this
    omega
  · exact h
  · have : s + 1 ≤ isqrt m := h
    have := Nat.mul_le_mul this this
    omega

theorem isqrt_mul_self (s : ℕ) : isqrt (s * s) = s := by
  refine isqrt_eq_of _ _ (le_refl _) ?_
  have : (s + 1) * (s + 1) = s * s + 2 * s + 1 := by ring
  omega

/-- Model of `_fpa_size(datasize, Npts)`, lines 86-101 of agilent.py:
`fpasize = datasize - 255; fpasize /= Npts; fpasize = int(np.sqrt(fpasize))`,
then reject unless `fpasize in [32, 64, 128]`.

The python computation is a true (float) division followed by
`int(np.sqrt(...))`, i.e. the floor of the real square root.  Since
`⌊√x⌋ = ⌊√⌊x⌋⌋` for every real `x ≥ 0`, natural floor division composed
with `isqrt` embeds it exactly (exact real arithmetic; float rounding of
astronomically large sizes is out of scope, as is the `datasize < 255`
path where python's `np.sqrt` of a negative number produces nan). -/
def _fpa_size (datasize npts : ℕ) : Except String ℕ :=
  if isqrt ((datasize - 255) / npts) = 32 ∨ isqrt ((datasize - 255) / npts) = 64 ∨
      isqrt ((datasize - 255) / npts) = 128 then
    Except.ok (isqrt ((datasize - 255) / npts))
  else Except.error "Unexpected FPA size"

/-- Step 2 of `_reshape_tile`: `data = data[255:]` followed by the
in-place `data.shape = (npts, side, side)` — element `(p, r, c)` of the
reshaped array is flat element `255 + (p·side + r)·side + c` of the raw
buffer (row-major). -/
def reshapeRaw (data : List ℚ) (side : ℕ) : ℕ → ℕ → ℕ → ℚ :=
  fun p r c => data.getD (255 + (p * side + r) * side + c) 0

/-- Model of `np.transpose(data, (1,2,0))` on a rank-3 array:
`result[i,j,k] = data[k,i,j]`. -/
def transpose120 (a : ℕ → ℕ → ℕ → ℚ) : ℕ → ℕ → ℕ → ℚ :=
  fun i j k => a k i j

/-- Model of `np.rot90(data, 2)`: a 180° rotation of the two leading (spatial)
axes of a square `side × side × ·` array. -/
def rot90twice (side : ℕ) (a : ℕ → ℕ → ℕ → ℚ) : ℕ → ℕ → ℕ → ℚ :=
  fun i j k => a (side - 1 - i) (side - 1 - j) k

/-- Model of `np.fliplr(data)`: mirror of the column (second) axis. -/
def npFliplr (side : ℕ) (a : ℕ → ℕ → ℕ → ℚ) : ℕ → ℕ → ℕ → ℚ :=
  fun i j k => a i (side - 1 - j) k

/-- Model of `np.flipud(data)`: mirror of the row (first) axis.  Not used by
`_reshape_tile` itself; it is the single net transform the spec claims
the composition equals, and its own inverse. -/
def npFlipud (side : ℕ) (a : ℕ → ℕ → ℕ → ℚ) : ℕ → ℕ → ℕ → ℚ :=
  fun i j k => a (side - 1 - i) j k

/-- Model of `_reshape_tile(data, shape)` with `shape = (npts, side, side)`,
lines 103-116 of agilent.py.  The in-place `data.shape = shape`
assignment raises when the number of elements after dropping the
255-element preamble differs from `npts·side·side`; afterwards the
transpose, rotation and mirror are applied. -/
def _reshape_tile (data : List ℚ) (npts side : ℕ) : Except String (ℕ → ℕ → ℕ → ℚ) :=
  if data.length = 255 + npts * side * side then
    Except.ok (npFliplr side (rot90twice side (transpose120 (reshapeRaw data side))))
  else Except.error "AttributeError: incompatible shape"

/-- A rank-3 numpy array: explicit dimensions plus a total index
function.  Values of `val` outside the dimensions are irrelevant
(theorems only quantify inside them). -/
structure NDArray3 where
  dim0 : ℕ
  dim1 : ℕ
  dim2 : ℕ
  val : ℕ → ℕ → ℕ → ℚ

/-- Model of `np.zeros((xtiles*fpasize, ytiles*fpasize, Npts), dtype=np.float32)`,
line 225 of agilent.py — note the source builds the first dimension from
`xtiles` and the second from `ytiles`. -/
def allocCanvas (xtiles ytiles fpasize npts : ℕ) : NDArray3 :=
  ⟨xtiles * fpasize, ytiles * fpasize, npts, fun _ _ _ => 0⟩

/-- Model of `data[r0:r0+side, c0:c0+side, :] = tile` for a `side × side × dim2`
tile: numpy clips an out-of-range slice, and the assignment then fails to
broadcast whenever the clipped region is smaller than the tile (`side`
is positive in every use). -/
def setRegion (a : NDArray3) (r0 c0 side : ℕ) (tile : ℕ → ℕ → ℕ → ℚ) :
    Except String NDArray3 :=
  if r0 + side ≤ a.dim0 ∧ c0 + side ≤ a.dim1 then
    Except.ok ⟨a.dim0, a.dim1, a.dim2, fun i j k =>
      if r0 ≤ i ∧ i < r0 + side ∧ c0 ≤ j ∧ j < c0 + side then
        tile (i - r0) (j - c0) k
      else a.val i j k⟩
  else Except.error "ValueError: could not broadcast input array"

/-- The set of `.dmd` tile files sharing the mosaic's stem: an
association list from the `(x, y)` written as `_{x:04d}_{y:04d}` in the
file name to the file's float32 element list. -/
abbrev TileFS := List ((ℕ × ℕ) × List ℚ)

/-- Opening (or stat-ing) tile file `<stem>_{x:04d}_{y:04d}.dmd`:
`some` contents when the file exists, `none` otherwise. -/
def findTile (fs : TileFS) (x y : ℕ) : Option (List ℚ) :=
  (fs.find? (fun e => e.1.1 == x && e.1.2 == y)).map (fun e => e.2)

/-- Model of `glob(stem + "_[0-9][0-9][0-9][0-9]_0000.dmd")` count, line 216:
files whose y index is 0 (any 4-digit x index). -/
def countX (fs : TileFS) : ℕ :=
  (fs.filter (fun e => e.1.2 == 0 && decide (e.1.1 < 10000))).length

/-- Model of `glob(stem + "_0000_[0-9][0-9][0-9][0-9].dmd")` count, line 218:
files whose x index is 0 (any 4-digit y index). -/
def countY (fs : TileFS) : ℕ :=
  (fs.filter (fun e => e.1.1 == 0 && decide (e.1.2 < 10000))).length

/-- One iteration of the placement loop, lines 230-235: open the tile
file (raising `FileNotFoundError` when absent), decode it with
`_reshape_tile`, and assign it into
`data[y*fpasize:(y+1)*fpasize, x*fpasize:(x+1)*fpasize, :]`. -/
def placeTile (fs : TileFS) (npts f : ℕ) (c : NDArray3) (x y : ℕ) :
    Except String NDArray3 :=
  match findTile fs x y with
  | none => Except.error "FileNotFoundError"
  | some raw =>
    match _reshape_tile raw npts f with
    | Except.error e => Except.error e
    | Except.ok tile => setRegion c (y * f) (x * f) f tile

/-- Sequential execution of `placeTile` over a list of `(x, y)` indices,
propagating the first error. -/
def placeSeq (fs : TileFS) (npts f : ℕ) : List (ℕ × ℕ) → NDArray3 → Except String NDArray3
  | [], c => Except.ok c
  | p :: ps, c =>
    match placeTile fs npts f c p.1 p.2 with
    | Except.error e => Except.error e
    | Except.ok c2 => placeSeq fs npts f ps c2

/-- The `(x, y)` pairs visited by `for y in range(ytiles): for x in
range(xtiles)`, in execution order (y outer and ascending, x inner). -/
def pairList (xtiles : ℕ) : ℕ → List (ℕ × ℕ)
  | 0 => []
  | y + 1 => pairList xtiles y ++ (List.range xtiles).map (fun x => (x, y))

/-- Model of `agilentMosaic._get_dmd`, lines 214-237: count the tiles on each
axis, stat the mandatory `_0000_0000` tile, infer the FPA side from its
size, allocate the canvas, and run the placement loop.  (`st_size / 4`
is the float32 element count, i.e. the length of the modelled
contents.) -/
def _get_dmd (fs : TileFS) (npts : ℕ) : Except String NDArray3 :=
  match findTile fs 0 0 with
  | none => Except.error "FileNotFoundError"
  | some raw0 =>
    match _fpa_size raw0.length npts with
    | Except.error e => Except.error e
    | Except.ok f =>
      placeSeq fs npts f (pairList (countX fs) (countY fs))
        (allocCanvas (countX fs) (countY fs) f npts)

/-- The three sibling files of a single-tile image, keyed by extension:
`none` when the file does not exist on disk. -/
structure ImageFiles where
  seq : Option (List ℕ)
  dat : Option (List ℚ)
  bsp : Option (List ℕ)

/-- Model of `self.info` of `agilentImage` after both update calls: the
`_get_wavenumbers` dictionary merged with the `_get_date` one. -/
structure ImageInfo where
  StartPt : ℤ
  Npts : ℤ
  PtSep : ℚ
  wavenumbers : List ℚ
  timeStamp : List ℕ

/-- The attributes `agilentImage.__init__` actually assigns: the
inherited `info` dictionary and the `data` array — nothing else. -/
structure AgilentImage where
  info : ImageInfo
  data : NDArray3

/-- Model of `agilentImage._get_bsp_info`: read the wavenumber fields and the
timestamp from the `.bsp` header bytes. -/
def _get_bsp_info (bsp : List ℕ) : Except String ImageInfo :=
  match _get_wavenumbers bsp with
  | Except.error e => Except.error e
  | Except.ok w =>
    match _get_date bsp with
    | Except.error e => Except.error e
    | Except.ok ts => Except.ok ⟨w.StartPt, w.Npts, w.PtSep, w.wavenumbers, ts⟩

/-- Model of `agilentImage._get_dat`: read the `.dat` float elements, infer the
FPA side from their count, and decode the single tile.  The decoded
array has shape `(fpasize, fpasize, Npts)`. -/
def _get_dat (dat : List ℚ) (npts : ℤ) : Except String NDArray3 :=
  match _fpa_size dat.length npts.toNat with
  | Except.error e => Except.error e
  | Except.ok f =>
    match _reshape_tile dat npts.toNat f with
    | Except.error e => Except.error e
    | Except.ok tile => Except.ok ⟨f, f, npts.toNat, tile⟩

/-- Model of `agilentImage.__init__(filename)`: `_check_files` demands the
`.seq`, `.dat` and `.bsp` siblings exist (in that order, contents
unread), then `_get_bsp_info` and `_get_dat` run.  Only the existence of
the `.seq` file is ever consulted. -/
def agilentImage (fs : ImageFiles) : Except String AgilentImage :=
  if fs.seq.isSome then
    match fs.dat with
    | none => Except.error "File .dat was not found"
    | some dat =>
      match fs.bsp with
      | none => Except.error "File .bsp was not found"
      | some bsp =>
        match _get_bsp_info bsp with
        | Except.error e => Except.error e
        | Except.ok info =>
          match _get_dat dat info.Npts with
          | Except.error e => Except.error e
          | Except.ok data => Except.ok ⟨info, data⟩
  else Except.error "File .seq was not found"

/-! ### Claim C3: the composed orientation steps equal one row reversal -/

/-- C3: any decoded tile agrees pointwise (on valid spatial indices)
with a single reversal of the row axis of the transposed array, columns
untouched; and reversing the row axis again (the inverse transform)
recovers the transposed, un-normalized layout. -/
theorem c3_orientation (raw : List ℚ) (npts side : ℕ) (t : ℕ → ℕ → ℕ → ℚ)
    (h : _reshape_tile raw npts side = Except.ok t) (i j k : ℕ)
    (hi : i < side) (hj : j < side) :
    t i j k = transpose120 (reshapeRaw raw side) (side - 1 - i) j k ∧
    npFlipud side t i j k = transpose120 (reshapeRaw raw side) i j k := by
  unfold _reshape_tile at h
  split at h
  · injection h with h
    subst h
    have e1 : side - 1 - (side - 1 - i) = i := by omega
    have e2 : side - 1 - (side - 1 - j) = j := by omega
    constructor
    · show transpose120 (reshapeRaw raw side) (side - 1 - i) (side - 1 - (side - 1 - j)) k = _
      rw [e2]
    · show transpose120 (reshapeRaw raw side) (side - 1 - (side - 1 - i))
        (side - 1 - (side - 1 - j)) k = _
      rw [e1, e2]
  · cases h

/-- A 2×2-pixel, single-point synthetic tile whose raw buffer is the
per-element index pattern 0,1,…,258. -/
def tinyRaw : List ℚ :=
  (List.range 259).map (fun n => (n : ℚ))

theorem c3_orientation_witness :
    ∃ t, _reshape_tile tinyRaw 1 2 = Except.ok t ∧
      (t 0 1 0 = transpose120 (reshapeRaw tinyRaw 2) (2 - 1 - 0) 1 0 ∧
       npFlipud 2 t 0 1 0 = transpose120 (reshapeRaw tinyRaw 2) 0 1 0) :=
  ⟨_, rfl, c3_orientation tinyRaw 1 2 _ rfl 0 1 0 (by norm_num) (by norm_num)⟩

/-! ### Claim C4: the wavenumber axis -/

/-- C4: for positive `Npts` and positive `PtSep`, the wavenumber list of
`_get_wavenumbers` has length exactly `Npts`, its `i`-th element is
`PtSep·(StartPt+i)`, it is strictly increasing, and its first and last
elements are `PtSep·StartPt` and `PtSep·(StartPt+Npts−1)`.  The
construction is a pure function of the three header fields. -/
theorem c4_wavenumbers (startPt : ℤ) (npts : ℕ) (ptSep : ℚ)
    (hn : 0 < npts) (hp : 0 < ptSep) :
    (wavenumbersList ptSep startPt npts).length = npts ∧
    (∀ i, i < npts → (wavenumbersList ptSep startPt npts).getD i 0 =
      ptSep * ((startPt : ℚ) + (i : ℚ))) ∧
    (wavenumbersList ptSep startPt npts).Pairwise (fun a b => a < b) ∧
    (wavenumbersList ptSep startPt npts).head? = some (ptSep * (startPt : ℚ)) ∧
    (wavenumbersList ptSep startPt npts).getLast? =
      some (ptSep * ((startPt : ℚ) + (npts : ℚ) - 1)) := by
  refine ⟨by simp [wavenumbersList], ?_, ?_, ?_, ?_⟩
  · intro i hi
    rw [wavenumbersList, List.getD_eq_getElem?_getD, List.getElem?_map,
      List.getElem?_range hi]
    simp only [Option.map_some', Option.getD_some]
    push_cast
    ring
  · rw [wavenumbersList, List.pairwise_map]
    refine List.Pairwise.imp ?_ (List.pairwise_lt_range npts)
    intro a b hab
    have hcast : ((startPt + (a : ℤ) : ℤ) : ℚ) < ((startPt + (b : ℤ) : ℤ) : ℚ) := by
      push_cast
      have : (a : ℚ) < (b : ℚ) := by exact_mod_cast hab
      linarith
    exact mul_lt_mul_of_pos_left hcast hp
  · obtain ⟨m, rfl⟩ := Nat.exists_eq_succ_of_ne_zero (Nat.pos_iff_ne_zero.mp hn)
    rw [wavenumbersList, List.range_succ_eq_map, List.map_cons]
    simp
  · obtain ⟨m, rfl⟩ := Nat.exists_eq_succ_of_ne_zero (Nat.pos_iff_ne_zero.mp hn)
    rw [wavenumbersList, List.range_succ, List.map_append, List.map_cons,
      List.map_nil, List.getLast?_concat]
    have : ((startPt + (m : ℤ) : ℤ) : ℚ) = (startPt : ℚ) + (m.succ : ℚ) - 1 := by
      push_cast
      ring
    rw [this]

theorem c4_wavenumbers_witness :
    0 < 3 ∧ (0 : ℚ) < 2 ∧
    ((wavenumbersList 2 0 3).length = 3 ∧
     (∀ i, i < 3 → (wavenumbersList 2 0 3).getD i 0 =
       2 * (((0 : ℤ) : ℚ) + (i : ℚ))) ∧
     (wavenumbersList 2 0 3).Pairwise (fun a b => a < b) ∧
     (wavenumbersList 2 0 3).head? = some (2 * ((0 : ℤ) : ℚ)) ∧
     (wavenumbersList 2 0 3).getLast? =
       some (2 * (((0 : ℤ) : ℚ) + ((3 : ℕ) : ℚ) - 1))) :=
  ⟨by norm_num, by norm_num, c4_wavenumbers 0 3 2 (by norm_num) (by norm_num)⟩

/-! ### Claim C5: FPA geometry inference -/

/-- Modelled from the spec: `inferSide(rawElementCount, numPoints)` with
`side = round(sqrt((rawElementCount − 255) / numPoints))` — nearest
integer instead of the floor the source takes.  For a natural argument
`q`, the nearest integer to `√q` is `⌊(⌊√(4q)⌋ + 1) / 2⌋` (the half-way
case cannot occur since `√q` is then irrational). -/
def inferSide_round (datasize npts : ℕ) : Except String ℕ :=
  if (isqrt (4 * ((datasize - 255) / npts)) + 1) / 2 = 32 ∨
      (isqrt (4 * ((datasize - 255) / npts)) + 1) / 2 = 64 ∨
      (isqrt (4 * ((datasize - 255) / npts)) + 1) / 2 = 128 then
    Except.ok ((isqrt (4 * ((datasize - 255) / npts)) + 1) / 2)
  else Except.error "Unexpected FPA size"

/-- C5 counterexample: at `rawElementCount = 1278`, `numPoints = 1`
(so `(1278−255)/1 = 1023`, `√1023 ≈ 31.98`), the claimed rounding would
accept side 32, but the source floors to 31 and rejects the geometry. -/
theorem c5_counterexample :
    _fpa_size 1278 1 = Except.error "Unexpected FPA size" ∧
    inferSide_round 1278 1 = Except.ok 32 :=
  ⟨rfl, rfl⟩

/-- C5 (amended): the source computes `side = floor(sqrt((rawElementCount
− 255) / numPoints))`, succeeds exactly when that value is one of
{32, 64, 128}, and in particular recovers `side` from
`255 + side²·numPoints`. -/
theorem c5_amended (side npts datasize s : ℕ)
    (hside : side = 32 ∨ side = 64 ∨ side = 128) (hn : 0 < npts) :
    _fpa_size (255 + side * side * npts) npts = Except.ok side ∧
    (_fpa_size datasize npts = Except.ok s ↔
      (s = isqrt ((datasize - 255) / npts) ∧ (s = 32 ∨ s = 64 ∨ s = 128))) := by
  constructor
  · have e1 : 255 + side * side * npts - 255 = side * side * npts := by omega
    have e2 : side * side * npts / npts = side * side := Nat.mul_div_cancel _ hn
    rw [_fpa_size, e1, e2, isqrt_mul_self]
    rw [if_pos hside]
  · rw [_fpa_size]
    split
    · rename_i h
      constructor
      · intro hok
        injection hok with hok
        exact ⟨hok.symm, hok ▸ h⟩
      · rintro ⟨rfl, _⟩
        rfl
    · rename_i h
      constructor
      · intro hok
        cases hok
      · rintro ⟨rfl, hmem⟩
        exact absurd hmem h

/-! ### Mosaic placement: supporting lemmas -/

theorem pairList_mem (xt yt x y : ℕ) : (x, y) ∈ pairList xt yt ↔ x < xt ∧ y < yt := by
  induction yt with
  | zero => simp [pairList]
  | succ n ih =>
    simp only [pairList, List.mem_append, ih, List.mem_map, List.mem_range,
      Prod.mk.injEq]
    constructor
    · rintro (⟨h1, h2⟩ | ⟨a, ha, rfl, rfl⟩)
      · exact ⟨h1, by omega⟩
      · exact ⟨ha, by omega⟩
    · rintro ⟨hx, hy⟩
      rcases Nat.lt_or_ge y n with h | h
      · exact Or.inl ⟨hx, h⟩
      · exact Or.inr ⟨x, hx, rfl, by omega⟩

/-- Successful placement of one tile: the tile file was found and
decoded, dimensions are unchanged, the assigned block holds the decoded
tile values, and every index outside the assigned block is untouched. -/
theorem placeTile_ok (fs : TileFS) (npts f : ℕ) (c c2 : NDArray3) (x y : ℕ)
    (h : placeTile fs npts f c x y = Except.ok c2) :
    ∃ raw tile, findTile fs x y = some raw ∧
      _reshape_tile raw npts f = Except.ok tile ∧
      c2.dim0 = c.dim0 ∧ c2.dim1 = c.dim1 ∧ c2.dim2 = c.dim2 ∧
      (∀ i j k, i < f → j < f → c2.val (y * f + i) (x * f + j) k = tile i j k) ∧
      (∀ i j k, ¬(y * f ≤ i ∧ i < y * f + f ∧ x * f ≤ j ∧ j < x * f + f) →
        c2.val i j k = c.val i j k) := by
  unfold placeTile at h
  cases hfind : findTile fs x y with
  | none =>
    simp only [hfind] at h
    cases h
  | some raw =>
    simp only [hfind] at h
    cases hres : _reshape_tile raw npts f with
    | error e =>
      simp only [hres] at h
      cases h
    | ok tile =>
      simp only [hres] at h
      unfold setRegion at h
      split at h
      · injection h with h
        subst h
        refine ⟨raw, tile, rfl, hres, rfl, rfl, rfl, ?_, ?_⟩
        · intro i j k hi hj
          have hcond : y * f ≤ y * f + i ∧ y * f + i < y * f + f ∧
              x * f ≤ x * f + j ∧ x * f + j < x * f + f := by
            refine ⟨Nat.le_add_right _ _, by omega, Nat.le_add_right _ _, by omega⟩
          show (if _ then _ else _) = tile i j k
          rw [if_pos hcond]
          have e1 : y * f + i - y * f = i := by omega
          have e2 : x * f + j - x * f = j := by omega
          rw [e1, e2]
        · intro i j k hout
          show (if _ then _ else _) = c.val i j k
          rw [if_neg hout]
      · cases h

/-- Two distinct `side`-aligned blocks are disjoint: an offset inside
block `b` is never inside block `a` when `a ≠ b`. -/
theorem block_disjoint (f a b i : ℕ) (hi : i < f) (hab : a ≠ b) :
    ¬(a * f ≤ b * f + i ∧ b * f + i < a * f + f) := by
  rintro ⟨h1, h2⟩
  rcases Nat.lt_or_ge a b with h | h
  · have hle : a + 1 ≤ b := h
    have hmul : (a + 1) * f ≤ b * f := Nat.mul_le_mul_right f hle
    have e : (a + 1) * f = a * f + f := by ring
    omega
  · have hba : b + 1 ≤ a := by omega
    have hmul : (b + 1) * f ≤ a * f := Nat.mul_le_mul_right f hba
    have e : (b + 1) * f = b * f + f := by ring
    omega

/-- Running the placement sequence over indices that all differ from
`(x0, y0)` never modifies block `(x0, y0)`. -/
theorem placeSeq_untouched (fs : TileFS) (npts f x0 y0 : ℕ) :
    ∀ (L : List (ℕ × ℕ)) (c c2 : NDArray3),
      placeSeq fs npts f L c = Except.ok c2 →
      (∀ p ∈ L, p ≠ (x0, y0)) →
      ∀ i j k, i < f → j < f →
        c2.val (y0 * f + i) (x0 * f + j) k = c.val (y0 * f + i) (x0 * f + j) k := by
  intro L
  induction L with
  | nil =>
    intro c c2 h _ i j k _ _
    injection h with h
    subst h
    rfl
  | cons p ps ih =>
    intro c c2 h hall i j k hi hj
    unfold placeSeq at h
    cases hpt : placeTile fs npts f c p.1 p.2 with
    | error e =>
      simp only [hpt] at h
      cases h
    | ok mid =>
      simp only [hpt] at h
      have hne : ¬(p.1 = x0 ∧ p.2 = y0) := by
        intro hc
        exact hall p (by simp) (by rw [Prod.ext_iff] ; exact hc)
      obtain ⟨raw, tile, _, _, _, _, _, _, huntouched⟩ :=
        placeTile_ok fs npts f c mid p.1 p.2 hpt
      have hout : ¬(p.2 * f ≤ y0 * f + i ∧ y0 * f + i < p.2 * f + f ∧
          p.1 * f ≤ x0 * f + j ∧ x0 * f + j < p.1 * f + f) := by
        rintro ⟨h1, h2, h3, h4⟩
        by_cases hy : p.2 = y0
        · have hx : p.1 ≠ x0 := fun hx => hne ⟨hx, hy⟩
          exact block_disjoint f p.1 x0 j hj hx ⟨h3, h4⟩
        · exact block_disjoint f p.2 y0 i hi hy ⟨h1, h2⟩
      rw [ih mid c2 h (fun q hq => hall q (List.mem_cons_of_mem _ hq)) i j k hi hj,
        huntouched _ _ _ hout]

/-- If the placement sequence finishes and `(x0, y0)` was among the
visited indices, then that tile file was found, decoded, and its decoded
values are exactly what block `(x0, y0)` of the final canvas holds. -/
theorem placeSeq_set (fs : TileFS) (npts f x0 y0 : ℕ) :
    ∀ (L : List (ℕ × ℕ)) (c c2 : NDArray3),
      placeSeq fs npts f L c = Except.ok c2 → (x0, y0) ∈ L →
      ∃ raw tile, findTile fs x0 y0 = some raw ∧
        _reshape_tile raw npts f = Except.ok tile ∧
        ∀ i j k, i < f → j < f →
          c2.val (y0 * f + i) (x0 * f + j) k = tile i j k := by
  intro L
  induction L with
  | nil => intro c c2 _ hmem; cases hmem
  | cons p ps ih =>
    intro c c2 h hmem
    unfold placeSeq at h
    cases hpt : placeTile fs npts f c p.1 p.2 with
    | error e =>
      simp only [hpt] at h
      cases h
    | ok mid =>
      simp only [hpt] at h
      by_cases hps : (x0, y0) ∈ ps
      · exact ih mid c2 h hps
      · have hp : p = (x0, y0) := by
          cases hmem with
          | head => rfl
          | tail _ h2 => exact absurd h2 hps
        subst hp
        obtain ⟨raw, tile, hfind, hres, _, _, _, hset, _⟩ :=
          placeTile_ok fs npts f c mid x0 y0 hpt
        refine ⟨raw, tile, hfind, hres, ?_⟩
        intro i j k hi hj
        have hnot : ∀ q ∈ ps, q ≠ (x0, y0) := by
          intro q hq hq2
          subst hq2
          exact hps hq
        rw [placeSeq_untouched fs npts f x0 y0 ps mid c2 h hnot i j k hi hj]
        exact hset i j k hi hj

/-! ### Claim C2: per-tile placement into the canvas -/

/-- C2: whenever mosaic assembly succeeds, every tile with grid index
`(x, y)` inside `[0,xTiles) × [0,yTiles)` was opened by name, decoded by
the tile decoder, and written exactly into canvas rows
`[y·side, (y+1)·side)` and columns `[x·side, (x+1)·side)`. -/
theorem c2_placement (fs : TileFS) (npts : ℕ) (raw0 : List ℚ) (f : ℕ)
    (canvas : NDArray3)
    (h0 : findTile fs 0 0 = some raw0)
    (hf : _fpa_size raw0.length npts = Except.ok f)
    (hok : _get_dmd fs npts = Except.ok canvas)
    (x y : ℕ) (hx : x < countX fs) (hy : y < countY fs) :
    ∃ raw tile, findTile fs x y = some raw ∧
      _reshape_tile raw npts f = Except.ok tile ∧
      ∀ i j k, i < f → j < f →
        canvas.val (y * f + i) (x * f + j) k = tile i j k := by
  unfold _get_dmd at hok
  simp only [h0, hf] at hok
  exact placeSeq_set fs npts f x y _ _ _ hok ((pairList_mem _ _ _ _).mpr ⟨hx, hy⟩)

/-- The 2×2 mosaic of the spec scenario: tile `(x, y)` is the constant
`10·x + y` (255-element preamble included; Npts = 1, side 32, so each
file has 255 + 32·32 = 1279 float elements). -/
def mosaic2x2 : TileFS :=
  [((0, 0), List.replicate 1279 (0 : ℚ)),
   ((1, 0), List.replicate 1279 (10 : ℚ)),
   ((0, 1), List.replicate 1279 (1 : ℚ)),
   ((1, 1), List.replicate 1279 (11 : ℚ))]

theorem c2_placement_witness :
    ∃ canvas, _get_dmd mosaic2x2 1 = Except.ok canvas ∧
      (∃ raw tile, findTile mosaic2x2 1 0 = some raw ∧
        _reshape_tile raw 1 32 = Except.ok tile ∧
        ∀ i j k, i < 32 → j < 32 →
          canvas.val (0 * 32 + i) (1 * 32 + j) k = tile i j k) ∧
      canvas.val 5 5 0 = 0 ∧ canvas.val 5 40 0 = 10 ∧
      canvas.val 40 5 0 = 1 ∧ canvas.val 40 40 0 = 11 :=
  ⟨_, rfl,
    c2_placement mosaic2x2 1 (List.replicate 1279 (0 : ℚ)) 32 _ rfl rfl rfl 1 0
      (by decide) (by decide),
    rfl, rfl, rfl, rfl⟩

/-! ### Claim C6: a tile reported by grid discovery but missing on disk -/

/-- C6 (amended): when grid discovery reports a tile as present
(`x < xTiles`, `y < yTiles`) but the tile file is missing at read time,
mosaic assembly does NOT complete: opening the file raises, so
`_get_dmd` fails (no canvas with a zero region is returned). -/
theorem c6_amended (fs : TileFS) (npts x y : ℕ)
    (hx : x < countX fs) (hy : y < countY fs)
    (hmiss : findTile fs x y = none) :
    (_get_dmd fs npts).isOk = false := by
  cases h0 : findTile fs 0 0 with
  | none =>
    simp only [_get_dmd, h0]
    rfl
  | some raw0 =>
    cases hf : _fpa_size raw0.length npts with
    | error e =>
      simp only [_get_dmd, h0, hf]
      rfl
    | ok f =>
      cases hrun : placeSeq fs npts f (pairList (countX fs) (countY fs))
          (allocCanvas (countX fs) (countY fs) f npts) with
      | error e =>
        simp only [_get_dmd, h0, hf, hrun]
        rfl
      | ok canvas =>
        obtain ⟨raw, _, hfind, _⟩ :=
          placeSeq_set fs npts f x y _ _ _ hrun ((pairList_mem _ _ _ _).mpr ⟨hx, hy⟩)
        rw [hmiss] at hfind
        cases hfind

/-- The C6 scenario: grid discovery counts two x-tiles (`_0000_0000` and
`_0002_0000` both match the x glob) but `_0001_0000` is absent. -/
def c6fs : TileFS :=
  [((0, 0), List.replicate 1279 (0 : ℚ)),
   ((2, 0), List.replicate 1279 (20 : ℚ))]

/-- C6 counterexample: with `xTiles = 2` reported and tile `(1, 0)`
missing, assembly raises `FileNotFoundError` instead of completing with
a zero-filled region. -/
theorem c6_counterexample :
    countX c6fs = 2 ∧ countY c6fs = 1 ∧ findTile c6fs 1 0 = none ∧
    _get_dmd c6fs 1 = Except.error "FileNotFoundError" :=
  ⟨rfl, rfl, rfl, rfl⟩

theorem c6_amended_witness :
    1 < countX c6fs ∧ 0 < countY c6fs ∧ findTile c6fs 1 0 = none ∧
    (_get_dmd c6fs 1).isOk = false :=
  ⟨by decide, by decide, by decide,
    c6_amended c6fs 1 1 0 (by decide) (by decide) (by decide)⟩

/-! ### Claim C9: positive grid counts and canvas dimensions -/

/-- C9: when the `_0000_0000` tile file exists (which the sibling-file
check guarantees before assembly runs), both glob counts are at least 1,
and — the inferred side being one of {32, 64, 128} — the allocated
canvas has positive spatial dimensions. -/
theorem c9_positive_dims (fs : TileFS) (raw : List ℚ) (npts f : ℕ)
    (h00 : findTile fs 0 0 = some raw)
    (hf : _fpa_size raw.length npts = Except.ok f) :
    1 ≤ countX fs ∧ 1 ≤ countY fs ∧
    0 < (allocCanvas (countX fs) (countY fs) f npts).dim0 ∧
    0 < (allocCanvas (countX fs) (countY fs) f npts).dim1 := by
  have hfpos : 0 < f := by
    unfold _fpa_size at hf
    split at hf
    · rename_i hcond
      injection hf with hf
      subst hf
      rcases hcond with h | h | h <;> omega
    · cases hf
  obtain ⟨e, hmem, he1, he2⟩ : ∃ e, e ∈ fs ∧ e.1.1 = 0 ∧ e.1.2 = 0 := by
    unfold findTile at h00
    cases hfind : fs.find? (fun e => e.1.1 == 0 && e.1.2 == 0) with
    | none => rw [hfind] at h00; cases h00
    | some e =>
      have hpred := List.find?_some hfind
      simp only [Bool.and_eq_true, beq_iff_eq] at hpred
      exact ⟨e, List.mem_of_find?_eq_some hfind, hpred.1, hpred.2⟩
  have hx : 1 ≤ countX fs := by
    have : e ∈ fs.filter (fun e => e.1.2 == 0 && decide (e.1.1 < 10000)) :=
      List.mem_filter.mpr ⟨hmem, by simp [he1, he2]⟩
    exact List.length_pos_of_mem this
  have hy : 1 ≤ countY fs := by
    have : e ∈ fs.filter (fun e => e.1.1 == 0 && decide (e.1.2 < 10000)) :=
      List.mem_filter.mpr ⟨hmem, by simp [he1, he2]⟩
    exact List.length_pos_of_mem this
  exact ⟨hx, hy, Nat.mul_pos hx hfpos, Nat.mul_pos hy hfpos⟩

/-- A minimal mosaic file set holding only the mandatory primary tile. -/
def c9fs : TileFS := [((0, 0), List.replicate 1279 (0 : ℚ))]

theorem c9_positive_dims_witness :
    1 ≤ countX c9fs ∧ 1 ≤ countY c9fs ∧
    0 < (allocCanvas (countX c9fs) (countY c9fs) 32 1).dim0 ∧
    0 < (allocCanvas (countX c9fs) (countY c9fs) 32 1).dim1 :=
  c9_positive_dims c9fs (List.replicate 1279 (0 : ℚ)) 1 32 rfl rfl

/-! ### Claim C1: the canvas allocation's shape -/

/-- The mosaic of the C1 failing input: tiles `_0000_0000` and
`_0000_0001` exist, so grid discovery reports `xTiles = 1`,
`yTiles = 2`. -/
def c1fs : TileFS :=
  [((0, 0), List.replicate 1279 (0 : ℚ)),
   ((0, 1), List.replicate 1279 (1 : ℚ))]

/-- C1: evaluation at the failing input.  The source allocates
`np.zeros((xtiles*fpasize, ytiles*fpasize, Npts))` — here `(32, 64, 1)`,
whereas the claim's `(yTiles·side, xTiles·side, numPoints)` is
`(64, 32, 1)` — and the placement loop consequently aborts with a
broadcast error when writing tile `(0, 1)` into rows `[32, 64)`.  The
array is zero-initialized, as the claim says. -/
theorem c1_alloc_eval :
    countX c1fs = 1 ∧ countY c1fs = 2 ∧
    (allocCanvas (countX c1fs) (countY c1fs) 32 1).dim0 = 32 ∧
    (allocCanvas (countX c1fs) (countY c1fs) 32 1).dim1 = 64 ∧
    (allocCanvas (countX c1fs) (countY c1fs) 32 1).dim2 = 1 ∧
    (allocCanvas (countX c1fs) (countY c1fs) 32 1).val 0 0 0 = 0 ∧
    (allocCanvas (countX c1fs) (countY c1fs) 32 1).val 63 31 0 = 0 ∧
    _get_dmd c1fs 1 = Except.error "ValueError: could not broadcast input array" :=
  ⟨rfl, rfl, rfl, rfl, rfl, rfl, rfl, rfl⟩

/-! ### Claim C7: header reads on short sources -/

theorem readint_error (src : List ℕ) (pos : ℕ) (h : src.length < pos + 4) :
    _readint src pos = Except.error "struct.error: unpack requires a buffer of 4 bytes" := by
  unfold _readint
  rw [if_neg]
  intro hc
  rw [fileRead, List.length_take, List.length_drop] at hc
  omega

theorem readint_ok (src : List ℕ) (pos : ℕ) (h : pos + 4 ≤ src.length) :
    _readint src pos = Except.ok (int32OfBytes (fileRead src pos 4)) := by
  unfold _readint
  rw [if_pos]
  rw [fileRead, List.length_take, List.length_drop]
  omega

/-- C7 (amended): a source with fewer bytes than any of the three
numeric fields requires (the furthest requirement is `Npts` at
2236+4 = 2240) makes `_get_wavenumbers` fail with the struct unpack
error; the 46-byte timestamp read at 16489, however, never fails on a
short source — in particular a source ending at or before offset 16489
yields an empty timestamp. -/
theorem c7_amended (src : List ℕ) :
    (src.length < 2240 → (_get_wavenumbers src).isOk = false) ∧
    (src.length ≤ 16489 → _get_date src = Except.ok []) := by
  constructor
  · intro hlen
    by_cases h1 : src.length < 2232
    · have he := readint_error src 2228 (by omega)
      simp only [_get_wavenumbers, he]
      rfl
    · have hok := readint_ok src 2228 (by omega)
      have he := readint_error src 2236 (by omega)
      simp only [_get_wavenumbers, hok, he]
      rfl
  · intro hlen
    have hnil : fileRead src 16489 46 = [] := by
      unfold fileRead
      rw [List.drop_eq_nil_of_le (by omega)]
      rfl
    rw [_get_date, hnil]
    rfl

/-- C7 counterexample: the empty source has fewer than the 46 bytes the
timestamp field requires, yet `_get_date` succeeds (with an empty
string) instead of failing. -/
theorem c7_counterexample : _get_date [] = Except.ok [] := rfl

theorem c7_amended_witness :
    ((List.length ([] : List ℕ) < 2240 ∧ (_get_wavenumbers []).isOk = false) ∧
     (List.length ([] : List ℕ) ≤ 16489 ∧ _get_date [] = Except.ok [])) :=
  ⟨⟨by norm_num, (c7_amended []).1 (by norm_num)⟩,
   ⟨by norm_num, (c7_amended []).2 (by norm_num)⟩⟩

/-! ### Claim C8: the public surface of a constructed image -/

/-- A 2240-byte `.bsp` header whose only nonzero byte sets `Npts = 1`
(bytes 2236-2239 little-endian); `StartPt` and `PtSep` read as 0. -/
def egBsp : List ℕ :=
  (List.range 2240).map (fun i => if i = 2236 then 1 else 0)

/-- A complete single-tile file set: the `.seq` exists (contents
irrelevant), the `.dat` holds 255 + 32·32 zero floats, the `.bsp` is
`egBsp`. -/
def egImageFS : ImageFiles :=
  ⟨some [], some (List.replicate 1279 (0 : ℚ)), some egBsp⟩

/-- C8: evaluating the constructor at a valid input.  What the
constructed object exposes is the `info` dictionary (header fields,
wavenumbers list, timestamp) and the `data` array — the model's
`AgilentImage` record has no `width`, `height`, `wavenumbers` or
`acqdate` attribute to project, mirroring the source, which documents
those attributes but never assigns them. -/
theorem c8_surface_eval :
    ∃ r, agilentImage egImageFS = Except.ok r ∧
      r.info.Npts = 1 ∧ r.info.StartPt = 0 ∧
      r.info.wavenumbers.length = 1 ∧ r.info.timeStamp = [] ∧
      r.data.dim0 = 32 ∧ r.data.dim1 = 32 ∧ r.data.dim2 = 1 :=
  ⟨_, rfl, rfl, rfl, rfl, rfl, rfl, rfl, rfl⟩

/-! ### Claim C10: the `.seq` contents never influence the result -/

/-- C10: two single-tile constructions whose `.bsp` and `.dat` contents
agree produce identical results whatever the two `.seq` files contain —
only the existence of the `.seq` sibling is consulted. -/
theorem c10_seq_independent (fs1 fs2 : ImageFiles) (s1 s2 : List ℕ)
    (h1 : fs1.seq = some s1) (h2 : fs2.seq = some s2)
    (hdat : fs1.dat = fs2.dat) (hbsp : fs1.bsp = fs2.bsp) :
    agilentImage fs1 = agilentImage fs2 := by
  unfold agilentImage
  rw [h1, h2, hdat, hbsp]
  rfl

/-- Same file set as `egImageFS` but with different (nonempty) `.seq`
contents. -/
def egImageFS2 : ImageFiles :=
  ⟨some [104, 101, 108, 108, 111], some (List.replicate 1279 (0 : ℚ)), some egBsp⟩

theorem c10_seq_independent_witness :
    egImageFS.seq = some [] ∧ egImageFS2.seq = some [104, 101, 108, 108, 111] ∧
    egImageFS.dat = egImageFS2.dat ∧ egImageFS.bsp = egImageFS2.bsp ∧
    agilentImage egImageFS = agilentImage egImageFS2 :=
  ⟨rfl, rfl, rfl, rfl,
    c10_seq_independent egImageFS egImageFS2 [] [104, 101, 108, 108, 111]
      rfl rfl rfl rfl⟩

theorem c5_amended_witness :
    ((64 : ℕ) = 32 ∨ (64 : ℕ) = 64 ∨ (64 : ℕ) = 128) ∧ 0 < 10 ∧
    (_fpa_size (255 + 64 * 64 * 10) 10 = Except.ok 64 ∧
     (_fpa_size 41215 10 = Except.ok 64 ↔
       ((64 : ℕ) = isqrt ((41215 - 255) / 10) ∧
        ((64 : ℕ) = 32 ∨ (64 : ℕ) = 64 ∨ (64 : ℕ) = 128)))) :=
  ⟨by norm_num, by norm_num, c5_amended 64 10 41215 64 (by norm_num) (by norm_num)⟩

end Agilent
